import Mathlib

/-!
Shallow embedding of the ESS chatbot's core: the cosine similarity scorer
(`src/similarity.py`), the intent detector (`src/intent_detector.py`) and the
admin e-mail conversation state machine (`src/admin_email_feature.py`).

Python floats are modelled as real numbers.  Python `Optional`/missing-key
dictionary entries are modelled as `Option`; Python string truthiness
(`if not s`, false for `None` and `""`) is `pyFalsy`.  The module-global
dictionary `_ADMIN_EMAIL_CONTEXT` is modelled by explicit state passing of an
association list keyed by the admin's `employee_id` (an `Option String`,
since `user.get("employee_id")` may be `None`).  The employee file and the
SMTP collaborator are external effects: the loaded employee list and a
delivery oracle `deliverOk` are fields of an environment `Env`, and an
uncaught Python exception crossing the function boundary is an
`Except.error`.
-/

deriving instance DecidableEq for Except

/-- Python truthiness test for an optional string: `None` and `""` are falsy. -/
def pyFalsy : Option String → Bool
  | none => true
  | some s => s.isEmpty

/-! ## similarity.py -/

/-- Norm subterm of `cosine_similarity`: `math.sqrt(sum(a * a for a in v))`. -/
noncomputable def vecNorm (v : List ℝ) : ℝ :=
  Real.sqrt ((v.map fun a => a * a).sum)

/-- `cosine_similarity(v1, v2)`: `sum(a*b for a, b in zip(v1, v2))` divided by
the product of the two norms. -/
noncomputable def cosine_similarity (v1 v2 : List ℝ) : ℝ :=
  (((v1.zip v2).map fun p => p.1 * p.2).sum) / (vecNorm v1 * vecNorm v2)

/-! ## intent_detector.py -/

/-- An intent from the catalog (`config/intents.json`).  `is_private` is read
with `intent.get("is_private", False)`, so the key may be absent. -/
structure Intent where
  intent_id : String
  name : String
  examples : List String
  is_private : Option Bool
deriving DecidableEq

/-- One entry of `self.intent_embeddings`: an example's embedding together
with a back-reference to its owning intent. -/
structure EmbRecord where
  intent : Intent
  embedding : List ℝ

/-- Constructor loop of `IntentDetector.__init__`: one record per
(intent, example) pair, in catalog order, embeddings precomputed. -/
def build_intent_embeddings (embed : String → List ℝ) (intents : List Intent) :
    List EmbRecord :=
  intents.flatMap fun it => it.examples.map fun ex => ⟨it, embed ex⟩

/-- Loop body of `IntentDetector.get_intent`: update `(best_intent, best_score)`
when `score > best_score` (strict comparison). -/
noncomputable def detStep (qe : List ℝ) (acc : Option Intent × ℝ) (item : EmbRecord) :
    Option Intent × ℝ :=
  let score := cosine_similarity qe item.embedding
  if acc.2 < score then (some item.intent, score) else acc

/-- `IntentDetector.get_intent(query, threshold)`: embed the query, scan all
embedding records starting from `best_score = 0.0`, `best_intent = None`,
return `(best_intent, best_score)` when `best_score >= threshold`, else
`(None, best_score)`. -/
noncomputable def get_intent (embed : String → List ℝ) (records : List EmbRecord)
    (query : String) (threshold : ℝ) : Option Intent × ℝ :=
  let qe := embed query
  let best := records.foldl (detStep qe) (none, 0)
  if threshold ≤ best.2 then (best.1, best.2) else (none, best.2)

/-- Similarity of every record against the query, in record order. -/
noncomputable def simScores (embed : String → List ℝ) (records : List EmbRecord)
    (query : String) : List ℝ :=
  records.map fun r => cosine_similarity (embed query) r.embedding

/-- `IntentDetector.is_private_intent(intent_id)`: linear scan, first record
with matching id returns its `is_private` flag (default `False`), unknown id
returns `False`. -/
def is_private_intent (intents : List Intent) (qid : String) : Bool :=
  match intents.find? fun it => it.intent_id == qid with
  | some it => it.is_private.getD false
  | none => false

/-! ## Spec-side definitions for claim C7 (refinement of the similarity
contract): dot product and Euclidean norm written independently of the
source's zip/map/sum phrasing. -/

/-- Dot product of two vectors, by recursion. -/
def dotProd : List ℝ → List ℝ → ℝ
  | a :: v1, b :: v2 => a * b + dotProd v1 v2
  | _, _ => 0

/-- Euclidean norm of a vector. -/
noncomputable def euclNorm (v : List ℝ) : ℝ :=
  Real.sqrt (dotProd v v)

/-! ## admin_email_feature.py -/

/-- An employee record from `data/employees.json`.  `employee_id` and `name`
are accessed with `[]` (required); `email` is accessed with `.get` (may be
absent or empty). -/
structure Employee where
  employee_id : String
  name : String
  email : Option String
deriving DecidableEq

/-- The caller-provided user record: `user.get("role")` and
`user.get("employee_id")`. -/
structure UserRec where
  role : Option String
  employee_id : Option String
deriving DecidableEq

/-- The entities dictionary: `message`, `employee_name` and `raw_text` keys,
each possibly absent. -/
structure Entities where
  message : Option String
  employee_name : Option String
  raw_text : Option String
deriving DecidableEq

/-- The arguments of one `_send_email` call. -/
structure SendReq where
  from_email : String
  to_email : String
  to_name : String
  admin_name : String
  message : String
deriving DecidableEq

/-- The module-global `_ADMIN_EMAIL_CONTEXT` dictionary: pending flow per
admin key, each context holding its `to_employee`. -/
abbrev EmailState := List (Option String × Employee)

/-- Dictionary lookup `_ADMIN_EMAIL_CONTEXT.get(admin_id)`. -/
def ctxFind (s : EmailState) (k : Option String) : Option Employee :=
  (s.find? fun p => p.1 == k).map Prod.snd

/-- Dictionary deletion, as performed by `_ADMIN_EMAIL_CONTEXT.pop(admin_id)`. -/
def ctxErase (s : EmailState) (k : Option String) : EmailState :=
  s.filter fun p => !(p.1 == k)

/-- Dictionary assignment `_ADMIN_EMAIL_CONTEXT[admin_id] = {...}`. -/
def ctxInsert (s : EmailState) (k : Option String) (v : Employee) : EmailState :=
  ctxErase s k ++ [(k, v)]

/-- External environment: the decoded `data/employees.json` list and the SMTP
collaborator, as an oracle telling whether a given send succeeds. -/
structure Env where
  employees : List Employee
  deliverOk : SendReq → Bool

/-- `_find_employee_by_name`: first employee whose lowercased name equals the
lowercased argument. -/
def _find_employee_by_name (name : String) (employees : List Employee) :
    Option Employee :=
  employees.find? fun e => e.name.toLower == name.toLower

/-- `_find_employee_by_id`: first employee whose id equals the argument
(`None` never equals a string id). -/
def _find_employee_by_id (empId : Option String) (employees : List Employee) :
    Option Employee :=
  employees.find? fun e => (some e.employee_id : Option String) == empId

/-- `_match_employee_name`: first employee whose lowercased name occurs as a
substring of the lowercased text; returns that employee's stored name. -/
def _match_employee_name (text : String) (employees : List Employee) :
    Option String :=
  (employees.find? fun e =>
      decide (List.IsInfix e.name.toLower.toList text.toLower.toList)).map
    Employee.name

/-- `_send_email`: builds the MIME message and sends it over SMTP.  The
`smtplib` block either succeeds or raises; the oracle decides which. -/
def _send_email (env : Env) (req : SendReq) : Except String Unit :=
  if env.deliverOk req then Except.ok () else Except.error "SMTPException"

/-- Observable outcome of one `handle_admin_email_feature` call: the returned
string (or the uncaught exception), the context dictionary afterwards, and
the list of attempted `_send_email` calls. -/
structure HandleResult where
  result : Except String String
  state : EmailState
  sends : List SendReq
deriving DecidableEq

/-- The message variable of STEP 2: `entities.get("message")`, falling back
to `entities.get("raw_text")` when falsy. -/
def effMessage (entities : Entities) : Option String :=
  if pyFalsy entities.message then entities.raw_text else entities.message

/-- `handle_admin_email_feature(user, entities)`, with the global context
dictionary passed in and out as explicit state. -/
def handle_admin_email_feature (env : Env) (state : EmailState)
    (user : UserRec) (entities : Entities) : HandleResult :=
  if user.role ≠ some "ADMIN" then
    ⟨Except.ok "❌ You are not authorized to send emails.", state, []⟩
  else
    let admin_id := user.employee_id
    match _find_employee_by_id admin_id env.employees with
    | none => ⟨Except.ok "❌ Admin email configuration missing.", state, []⟩
    | some admin =>
      if pyFalsy admin.email then
        ⟨Except.ok "❌ Admin email configuration missing.", state, []⟩
      else
        match ctxFind state admin_id with
        | some toEmployee =>
          let message := effMessage entities
          if pyFalsy message then
            ⟨Except.ok "❓ Please provide the message to send.", state, []⟩
          else
            let state' := ctxErase state admin_id
            let req : SendReq :=
              ⟨admin.email.getD "", toEmployee.email.getD "", toEmployee.name,
               admin.name, message.getD ""⟩
            match _send_email env req with
            | Except.ok _ =>
              ⟨Except.ok ("✅ Email sent successfully to " ++ toEmployee.name ++ "."),
               state', [req]⟩
            | Except.error e => ⟨Except.error e, state', [req]⟩
        | none =>
          let employee_name :=
            if pyFalsy entities.employee_name then
              _match_employee_name (entities.raw_text.getD "") env.employees
            else entities.employee_name
          if pyFalsy employee_name then
            ⟨Except.ok "❓ Please specify the employee name.", state, []⟩
          else
            match _find_employee_by_name (employee_name.getD "") env.employees with
            | none =>
              ⟨Except.ok ("❌ Employee '" ++ employee_name.getD "" ++ "' not found."),
               state, []⟩
            | some employee =>
              if pyFalsy employee.email then
                ⟨Except.ok ("❌ Email not available for " ++ employee.name ++ "."),
                 state, []⟩
              else
                ⟨Except.ok ("📩 What message would you like to send to "
                    ++ employee.name ++ "?"),
                 ctxInsert state admin_id employee, []⟩

/-! ## Concrete fixtures for witnesses and counterexamples -/

/-- A concrete admin employee. -/
def aliceA : Employee := ⟨"A1", "Alice", some "alice@corp.com"⟩

/-- A concrete target employee. -/
def bobE : Employee := ⟨"E2", "Bob", some "bob@corp.com"⟩

/-- Environment whose delivery collaborator always succeeds. -/
def envOkW : Env := ⟨[aliceA, bobE], fun _ => true⟩

/-- Environment whose delivery collaborator always fails. -/
def envFailW : Env := ⟨[aliceA, bobE], fun _ => false⟩

/-- A context map with a pending flow for admin `A1` targeting Bob. -/
def stPendW : EmailState := [(some "A1", bobE)]

/-- The admin user record for `A1`. -/
def adminUserW : UserRec := ⟨some "ADMIN", some "A1"⟩

/-- A non-admin user record. -/
def employeeUserW : UserRec := ⟨some "EMPLOYEE", some "E2"⟩

/-- A concrete private intent. -/
def intentGreet : Intent := ⟨"greet", "Greeting", ["hello there"], some true⟩

/-- A concrete intent with no `is_private` key. -/
def intentBye : Intent := ⟨"bye", "Goodbye", ["bye"], none⟩

/-- An embedder sending every string to the unit vector `[1, 0]`. -/
noncomputable def embedUnit : String → List ℝ := fun _ => [1, 0]

/-- A one-record catalog whose example embeds to `[1, 0]`. -/
noncomputable def recsUnit : List EmbRecord := [⟨intentGreet, [1, 0]⟩]

/-- A one-record catalog whose example embeds to `[-1, 0]`, anti-parallel to
the query embedding of `embedUnit`. -/
noncomputable def recsNegW : List EmbRecord := [⟨intentGreet, [-1, 0]⟩]

/-- A one-record catalog whose example embeds to `[0, 1]`, orthogonal to the
query embedding of `embedUnit`. -/
noncomputable def recsOrthW : List EmbRecord := [⟨intentGreet, [0, 1]⟩]

/-! ## Helper lemmas -/

/-- Deleting a key makes subsequent lookup of that key fail. -/
theorem ctxFind_ctxErase (s : EmailState) (k : Option String) :
    ctxFind (ctxErase s k) k = none := by
  induction s with
  | nil => rfl
  | cons p t ih =>
    cases h : p.1 == k with
    | true => simp only [ctxErase, List.filter, h, Bool.not_true] at ih ⊢; exact ih
    | false =>
      simp only [ctxErase, ctxFind, List.filter, List.find?, h, Bool.not_false] at ih ⊢
      exact ih

/-- One detector step updates the running score to the max of the old score
and the new similarity. -/
theorem detStep_snd (qe : List ℝ) (acc : Option Intent × ℝ) (r : EmbRecord) :
    (detStep qe acc r).2 = max acc.2 (cosine_similarity qe r.embedding) := by
  unfold detStep
  by_cases h : acc.2 < cosine_similarity qe r.embedding
  · simp [h, max_eq_right h.le]
  · simp [h, max_eq_left (not_lt.mp h)]

/-- The score component of the detector fold is a running maximum. -/
theorem foldl_detStep_snd (qe : List ℝ) :
    ∀ (recs : List EmbRecord) (acc : Option Intent × ℝ),
      (recs.foldl (detStep qe) acc).2
        = recs.foldl (fun b r => max b (cosine_similarity qe r.embedding)) acc.2
  | [], _ => rfl
  | r :: rs, acc => by
    rw [List.foldl_cons, List.foldl_cons, foldl_detStep_snd qe rs, detStep_snd]

/-- When no remaining record strictly beats the accumulator, the fold keeps
the accumulator unchanged. -/
theorem foldl_detStep_frozen (qe : List ℝ) :
    ∀ (recs : List EmbRecord) (acc : Option Intent × ℝ),
      (∀ r ∈ recs, cosine_similarity qe r.embedding ≤ acc.2) →
      recs.foldl (detStep qe) acc = acc
  | [], _, _ => rfl
  | r :: rs, acc, h => by
    have hr : cosine_similarity qe r.embedding ≤ acc.2 := h r (List.mem_cons_self r rs)
    have hstep : detStep qe acc r = acc := by
      unfold detStep
      simp [not_lt.mpr hr]
    rw [List.foldl_cons, hstep]
    exact foldl_detStep_frozen qe rs acc fun x hx => h x (List.mem_cons_of_mem r hx)

/-- The detector fold lands on the first record achieving the strict maximum,
provided that record strictly beats the initial accumulator. -/
theorem foldl_detStep_firstmax (qe : List ℝ) :
    ∀ (recs : List EmbRecord) (acc : Option Intent × ℝ) (i : Nat) (hi : i < recs.length),
      acc.2 < cosine_similarity qe ((recs.get ⟨i, hi⟩).embedding) →
      (∀ j (hj : j < recs.length), j < i →
        cosine_similarity qe ((recs.get ⟨j, hj⟩).embedding)
          < cosine_similarity qe ((recs.get ⟨i, hi⟩).embedding)) →
      (∀ j (hj : j < recs.length),
        cosine_similarity qe ((recs.get ⟨j, hj⟩).embedding)
          ≤ cosine_similarity qe ((recs.get ⟨i, hi⟩).embedding)) →
      recs.foldl (detStep qe) acc
        = (some (recs.get ⟨i, hi⟩).intent,
           cosine_similarity qe ((recs.get ⟨i, hi⟩).embedding))
  | [], _, i, hi, _, _, _ => absurd hi (Nat.not_lt_zero i)
  | r :: rs, acc, 0, _, hacc, _, hmax => by
    have hacc' : acc.2 < cosine_similarity qe r.embedding := by simpa using hacc
    have hstep : detStep qe acc r = (some r.intent, cosine_similarity qe r.embedding) := by
      unfold detStep
      simp [hacc']
    rw [List.foldl_cons, hstep]
    have hrest : ∀ x ∈ rs, cosine_similarity qe x.embedding
        ≤ (some r.intent, cosine_similarity qe r.embedding).2 := by
      intro x hx
      obtain ⟨⟨j, hj⟩, hget⟩ := List.mem_iff_get.mp hx
      have h1 := hmax (j + 1) (Nat.succ_lt_succ hj)
      rw [show ((r :: rs).get ⟨j + 1, Nat.succ_lt_succ hj⟩) = rs.get ⟨j, hj⟩ from rfl,
        hget] at h1
      simpa using h1
    exact foldl_detStep_frozen qe rs _ hrest
  | r :: rs, acc, (k + 1), hi, hacc, hfirst, hmax => by
    have hk : k < rs.length := Nat.lt_of_succ_lt_succ hi
    have h0 : cosine_similarity qe r.embedding
        < cosine_similarity qe ((rs.get ⟨k, hk⟩).embedding) := by
      have := hfirst 0 (Nat.succ_pos _) (Nat.succ_pos _)
      simpa using this
    have hsnd : (detStep qe acc r).2
        < cosine_similarity qe ((rs.get ⟨k, hk⟩).embedding) := by
      rw [detStep_snd]
      exact max_lt (by simpa using hacc) h0
    rw [List.foldl_cons]
    exact foldl_detStep_firstmax qe rs (detStep qe acc r) k hk hsnd
      (fun j hj hjk => by
        have := hfirst (j + 1) (Nat.succ_lt_succ hj) (Nat.succ_lt_succ hjk)
        simpa using this)
      (fun j hj => by
        have := hmax (j + 1) (Nat.succ_lt_succ hj)
        simpa using this)

/-- A left fold by `max` stays below any bound dominating the seed and every
element. -/
theorem foldl_max_le : ∀ (l : List ℝ) (c b : ℝ), c ≤ b → (∀ s ∈ l, s ≤ b) →
    l.foldl max c ≤ b
  | [], _, _, hc, _ => hc
  | s :: t, c, b, hc, h => by
    rw [List.foldl_cons]
    exact foldl_max_le t (max c s) b (max_le hc (h s (List.mem_cons_self s t)))
      fun x hx => h x (List.mem_cons_of_mem s hx)

/-- The reported score of `get_intent` is the running maximum of the
similarities, seeded with `0`. -/
theorem get_intent_snd (embed : String → List ℝ) (records : List EmbRecord)
    (query : String) (threshold : ℝ) :
    (get_intent embed records query threshold).2
      = records.foldl
          (fun b r => max b (cosine_similarity (embed query) r.embedding)) 0 := by
  simp only [get_intent]
  split <;> simpa using foldl_detStep_snd (embed query) records (none, 0)

/-- A mapped list sum as a sum over `Fin`. -/
theorem list_sum_map_eq {α : Type} (l : List α) (f : α → ℝ) :
    (l.map f).sum = ∑ i : Fin l.length, f (l.get i) := by
  conv_lhs => rw [← List.ofFn_get l]
  rw [List.map_ofFn, List.sum_ofFn]
  rfl

/-- Squares of the first components of a zip are dominated by the squares of
the whole first vector. -/
theorem zip_fst_sq_le : ∀ v1 v2 : List ℝ,
    (((v1.zip v2).map fun p => p.1 * p.1).sum) ≤ ((v1.map fun a => a * a).sum)
  | [], _ => by simp
  | a :: v1, [] => by
    simp only [List.zip_nil_right, List.map_nil, List.sum_nil]
    refine List.sum_nonneg ?_
    intro x hx
    obtain ⟨y, _, rfl⟩ := List.mem_map.mp hx
    exact mul_self_nonneg y
  | a :: v1, b :: v2 => by
    simp only [List.zip_cons_cons, List.map_cons, List.sum_cons]
    exact add_le_add_left (zip_fst_sq_le v1 v2) _

/-- Squares of the second components of a zip are dominated by the squares of
the whole second vector. -/
theorem zip_snd_sq_le : ∀ v1 v2 : List ℝ,
    (((v1.zip v2).map fun p => p.2 * p.2).sum) ≤ ((v2.map fun b => b * b).sum)
  | [], v2 => by
    simp only [List.zip_nil_left, List.map_nil, List.sum_nil]
    refine List.sum_nonneg ?_
    intro x hx
    obtain ⟨y, _, rfl⟩ := List.mem_map.mp hx
    exact mul_self_nonneg y
  | a :: v1, [] => by simp
  | a :: v1, b :: v2 => by
    simp only [List.zip_cons_cons, List.map_cons, List.sum_cons]
    exact add_le_add_left (zip_snd_sq_le v1 v2) _

/-- Cauchy-Schwarz for the source's zip-based dot product and norms. -/
theorem dot_le_norms (v1 v2 : List ℝ) :
    (((v1.zip v2).map fun p => p.1 * p.2).sum) ≤ vecNorm v1 * vecNorm v2 := by
  have h1 : (((v1.zip v2).map fun p => p.1 * p.2).sum)
      = ∑ i : Fin (v1.zip v2).length, ((v1.zip v2).get i).1 * ((v1.zip v2).get i).2 :=
    list_sum_map_eq _ _
  have hcs : (∑ i : Fin (v1.zip v2).length, ((v1.zip v2).get i).1 * ((v1.zip v2).get i).2)
      ≤ Real.sqrt (∑ i : Fin (v1.zip v2).length, ((v1.zip v2).get i).1 ^ 2)
        * Real.sqrt (∑ i : Fin (v1.zip v2).length, ((v1.zip v2).get i).2 ^ 2) :=
    Real.sum_mul_le_sqrt_mul_sqrt Finset.univ _ _
  have e1 : (∑ i : Fin (v1.zip v2).length, ((v1.zip v2).get i).1 ^ 2)
      = (((v1.zip v2).map fun p => p.1 * p.1).sum) := by
    rw [list_sum_map_eq]
    exact Finset.sum_congr rfl fun i _ => pow_two _
  have e2 : (∑ i : Fin (v1.zip v2).length, ((v1.zip v2).get i).2 ^ 2)
      = (((v1.zip v2).map fun p => p.2 * p.2).sum) := by
    rw [list_sum_map_eq]
    exact Finset.sum_congr rfl fun i _ => pow_two _
  rw [h1]
  refine hcs.trans ?_
  rw [e1, e2]
  unfold vecNorm
  exact mul_le_mul (Real.sqrt_le_sqrt (zip_fst_sq_le v1 v2))
    (Real.sqrt_le_sqrt (zip_snd_sq_le v1 v2)) (Real.sqrt_nonneg _) (Real.sqrt_nonneg _)

/-- Norms are nonnegative. -/
theorem vecNorm_nonneg (v : List ℝ) : 0 ≤ vecNorm v := Real.sqrt_nonneg _

/-- A cosine similarity between vectors of nonzero norm is at most `1`. -/
theorem cosine_le_one (v1 v2 : List ℝ) (h1 : vecNorm v1 ≠ 0) (h2 : vecNorm v2 ≠ 0) :
    cosine_similarity v1 v2 ≤ 1 := by
  have hn1 : 0 < vecNorm v1 := lt_of_le_of_ne (vecNorm_nonneg v1) (Ne.symm h1)
  have hn2 : 0 < vecNorm v2 := lt_of_le_of_ne (vecNorm_nonneg v2) (Ne.symm h2)
  rw [cosine_similarity, div_le_one (mul_pos hn1 hn2)]
  exact dot_le_norms v1 v2

/-- The zip-based dot product of the source equals the recursive `dotProd`. -/
theorem zip_sum_eq_dotProd : ∀ v1 v2 : List ℝ,
    (((v1.zip v2).map fun p => p.1 * p.2).sum) = dotProd v1 v2
  | [], v2 => by simp [dotProd]
  | a :: v1, [] => by simp [dotProd]
  | a :: v1, b :: v2 => by
    simp only [List.zip_cons_cons, List.map_cons, List.sum_cons, dotProd]
    rw [zip_sum_eq_dotProd v1 v2]

/-- The sum of squares in a norm equals `dotProd` of the vector with itself. -/
theorem sq_sum_eq_dotProd : ∀ v : List ℝ, ((v.map fun a => a * a).sum) = dotProd v v
  | [] => by simp [dotProd]
  | a :: v => by
    simp only [List.map_cons, List.sum_cons, dotProd]
    rw [sq_sum_eq_dotProd v]

/-- The source norm agrees with the spec-side Euclidean norm. -/
theorem vecNorm_eq_euclNorm (v : List ℝ) : vecNorm v = euclNorm v := by
  rw [vecNorm, euclNorm, sq_sum_eq_dotProd]

/-- Norm of the unit vector `[1, 0]`. -/
theorem vecNorm_unit : vecNorm [(1 : ℝ), 0] = 1 := by
  rw [vecNorm]
  norm_num

/-- Norm of `[-1, 0]`. -/
theorem vecNorm_negUnit : vecNorm [(-1 : ℝ), 0] = 1 := by
  rw [vecNorm]
  norm_num

/-- Norm of `[0, 1]`. -/
theorem vecNorm_orthUnit : vecNorm [(0 : ℝ), 1] = 1 := by
  rw [vecNorm]
  norm_num

/-- Cosine of the unit vector with itself. -/
theorem cos_unit_unit : cosine_similarity [(1 : ℝ), 0] [1, 0] = 1 := by
  rw [cosine_similarity, vecNorm_unit]
  norm_num

/-- Cosine of the unit vector with its negation. -/
theorem cos_unit_neg : cosine_similarity [(1 : ℝ), 0] [-1, 0] = -1 := by
  rw [cosine_similarity, vecNorm_unit, vecNorm_negUnit]
  norm_num

/-- Cosine of two orthogonal unit vectors. -/
theorem cos_unit_orth : cosine_similarity [(1 : ℝ), 0] [0, 1] = 0 := by
  rw [cosine_similarity, vecNorm_unit, vecNorm_orthUnit]
  norm_num

/-- Euclidean norm of `[3, 4]`. -/
theorem euclNorm_34 : euclNorm [(3 : ℝ), 4] = 5 := by
  rw [euclNorm]
  norm_num [dotProd]
  rw [show (25 : ℝ) = 5 ^ 2 by norm_num, Real.sqrt_sq (by norm_num : (0 : ℝ) ≤ 5)]

/-- Euclidean norm of `[4, 3]`. -/
theorem euclNorm_43 : euclNorm [(4 : ℝ), 3] = 5 := by
  rw [euclNorm]
  norm_num [dotProd]
  rw [show (25 : ℝ) = 5 ^ 2 by norm_num, Real.sqrt_sq (by norm_num : (0 : ℝ) ≤ 5)]

/-! ## Claims about the admin e-mail state machine -/

/-- Claim C6: a non-admin caller receives the not-authorized rejection and no
state is mutated: the context map is returned unchanged and no send is
dispatched, regardless of the entities supplied. -/
theorem claim_C6 (env : Env) (state : EmailState) (user : UserRec) (entities : Entities)
    (h : user.role ≠ some "ADMIN") :
    handle_admin_email_feature env state user entities
      = ⟨Except.ok "❌ You are not authorized to send emails.", state, []⟩ := by
  unfold handle_admin_email_feature
  rw [if_pos h]

/-- Witness for C6 at a concrete non-admin user. -/
theorem claim_C6_witness :
    handle_admin_email_feature envOkW stPendW employeeUserW ⟨some "x", some "Bob", some "y"⟩
      = ⟨Except.ok "❌ You are not authorized to send emails.", stPendW, []⟩ :=
  claim_C6 envOkW stPendW employeeUserW ⟨some "x", some "Bob", some "y"⟩ (by decide)

/-- Counterexample to claim C1 as stated: in `AWAITING_MESSAGE`, the
whitespace-only message `" "` is truthy for Python (`if not message` only
catches `None` and `""`), so instead of the re-prompt the handler sends the
e-mail and clears the pending target. -/
theorem claim_C1_cex :
    (" ".toList.all Char.isWhitespace = true ∧ " " ≠ "")
      ∧ (handle_admin_email_feature envOkW stPendW adminUserW ⟨some " ", none, none⟩).result
          = Except.ok "✅ Email sent successfully to Bob."
      ∧ (handle_admin_email_feature envOkW stPendW adminUserW ⟨some " ", none, none⟩).state
          = []
      ∧ ("✅ Email sent successfully to Bob." ≠ "❓ Please provide the message to send.")
      ∧ stPendW ≠ [] := by
  refine ⟨⟨by decide, by decide⟩, rfl, rfl, by decide, by decide⟩

/-- Claim C1 (amended): in `AWAITING_MESSAGE`, an input whose message and
raw-text fallback are both empty in the Python-falsy sense (absent or the
empty string, but not merely whitespace) yields the re-prompt and leaves the
context map, hence the pending target, unchanged. -/
theorem claim_C1 (env : Env) (state : EmailState) (user : UserRec) (entities : Entities)
    (admin target : Employee)
    (hrole : user.role = some "ADMIN")
    (hadmin : _find_employee_by_id user.employee_id env.employees = some admin)
    (hmail : pyFalsy admin.email = false)
    (hpend : ctxFind state user.employee_id = some target)
    (hmsg : pyFalsy entities.message = true)
    (hraw : pyFalsy entities.raw_text = true) :
    handle_admin_email_feature env state user entities
        = ⟨Except.ok "❓ Please provide the message to send.", state, []⟩
      ∧ ctxFind (handle_admin_email_feature env state user entities).state
          user.employee_id = some target := by
  have hne : ¬ user.role ≠ some "ADMIN" := by simp [hrole]
  have heff : pyFalsy (effMessage entities) = true := by
    rw [effMessage, hmsg]
    simpa using hraw
  have hmain : handle_admin_email_feature env state user entities
      = ⟨Except.ok "❓ Please provide the message to send.", state, []⟩ := by
    simp [handle_admin_email_feature, hrole, hadmin, hmail, hpend, heff]
  exact ⟨hmain, by rw [hmain]; exact hpend⟩

/-- Witness for C1 (amended) at a concrete pending session and empty input. -/
theorem claim_C1_witness :
    handle_admin_email_feature envOkW stPendW adminUserW ⟨none, none, some ""⟩
        = ⟨Except.ok "❓ Please provide the message to send.", stPendW, []⟩
      ∧ ctxFind (handle_admin_email_feature envOkW stPendW adminUserW
          ⟨none, none, some ""⟩).state (some "A1") = some bobE :=
  claim_C1 envOkW stPendW adminUserW ⟨none, none, some ""⟩ aliceA bobE rfl rfl rfl rfl
    rfl rfl

/-- Claim C3: in `AWAITING_MESSAGE`, a Python-truthy message (or raw-text
fallback) consumes the pending target — the key is removed from the context
map, so a later lookup finds nothing — dispatches exactly one send whose
recipient is the pending target's contact address, and returns the success
confirmation naming the target (assuming the delivery collaborator
succeeds). -/
theorem claim_C3 (env : Env) (state : EmailState) (user : UserRec) (entities : Entities)
    (admin target : Employee) (addr : String)
    (hrole : user.role = some "ADMIN")
    (hadmin : _find_employee_by_id user.employee_id env.employees = some admin)
    (hmail : pyFalsy admin.email = false)
    (hpend : ctxFind state user.employee_id = some target)
    (hmsg : pyFalsy (effMessage entities) = false)
    (haddr : target.email = some addr)
    (hdel : ∀ r, env.deliverOk r = true) :
    handle_admin_email_feature env state user entities
        = ⟨Except.ok ("✅ Email sent successfully to " ++ target.name ++ "."),
           ctxErase state user.employee_id,
           [⟨admin.email.getD "", addr, target.name, admin.name,
             (effMessage entities).getD ""⟩]⟩
      ∧ ctxFind (handle_admin_email_feature env state user entities).state
          user.employee_id = none := by
  have hmain : handle_admin_email_feature env state user entities
      = ⟨Except.ok ("✅ Email sent successfully to " ++ target.name ++ "."),
         ctxErase state user.employee_id,
         [⟨admin.email.getD "", addr, target.name, admin.name,
           (effMessage entities).getD ""⟩]⟩ := by
    simp [handle_admin_email_feature, hrole, hadmin, hmail, hpend, hmsg, haddr,
      _send_email, hdel]
  refine ⟨hmain, ?_⟩
  rw [hmain]
  exact ctxFind_ctxErase state user.employee_id

/-- Witness for C3: the concrete pending session for Bob, a real message, a
delivery collaborator that succeeds. -/
theorem claim_C3_witness :
    handle_admin_email_feature envOkW stPendW adminUserW
        ⟨some "Please submit your report", none, none⟩
        = ⟨Except.ok ("✅ Email sent successfully to " ++ bobE.name ++ "."),
           ctxErase stPendW (some "A1"),
           [⟨aliceA.email.getD "", "bob@corp.com", bobE.name, aliceA.name,
             (effMessage ⟨some "Please submit your report", none, none⟩).getD ""⟩]⟩
      ∧ ctxFind (handle_admin_email_feature envOkW stPendW adminUserW
          ⟨some "Please submit your report", none, none⟩).state (some "A1") = none :=
  claim_C3 envOkW stPendW adminUserW ⟨some "Please submit your report", none, none⟩
    aliceA bobE "bob@corp.com" rfl rfl rfl rfl rfl rfl (fun _ => rfl)

/-- Claim C10: in `AWAITING_MESSAGE` with a truthy message, the pending flow
is removed from the context map before the send is attempted: when the
delivery collaborator fails, the `SMTPException` escapes, yet the context key
is already gone and the send was attempted exactly once — remove-immediately,
at-most-once semantics, the target is lost. -/
theorem claim_C10 (env : Env) (state : EmailState) (user : UserRec) (entities : Entities)
    (admin target : Employee)
    (hrole : user.role = some "ADMIN")
    (hadmin : _find_employee_by_id user.employee_id env.employees = some admin)
    (hmail : pyFalsy admin.email = false)
    (hpend : ctxFind state user.employee_id = some target)
    (hmsg : pyFalsy (effMessage entities) = false)
    (hdel : ∀ r, env.deliverOk r = false) :
    (handle_admin_email_feature env state user entities).result
        = Except.error "SMTPException"
      ∧ ctxFind (handle_admin_email_feature env state user entities).state
          user.employee_id = none
      ∧ (handle_admin_email_feature env state user entities).sends
          = [⟨admin.email.getD "", target.email.getD "", target.name, admin.name,
              (effMessage entities).getD ""⟩] := by
  have hmain : handle_admin_email_feature env state user entities
      = ⟨Except.error "SMTPException", ctxErase state user.employee_id,
         [⟨admin.email.getD "", target.email.getD "", target.name, admin.name,
           (effMessage entities).getD ""⟩]⟩ := by
    simp [handle_admin_email_feature, hrole, hadmin, hmail, hpend, hmsg,
      _send_email, hdel]
  rw [hmain]
  exact ⟨rfl, ctxFind_ctxErase state user.employee_id, rfl⟩

/-- Witness for C10: the concrete pending session for Bob with a failing
delivery collaborator. -/
theorem claim_C10_witness :
    (handle_admin_email_feature envFailW stPendW adminUserW ⟨some "Hi", none, none⟩).result
        = Except.error "SMTPException"
      ∧ ctxFind (handle_admin_email_feature envFailW stPendW adminUserW
          ⟨some "Hi", none, none⟩).state (some "A1") = none
      ∧ (handle_admin_email_feature envFailW stPendW adminUserW
          ⟨some "Hi", none, none⟩).sends
          = [⟨aliceA.email.getD "", bobE.email.getD "", bobE.name, aliceA.name,
              (effMessage ⟨some "Hi", none, none⟩).getD ""⟩] :=
  claim_C10 envFailW stPendW adminUserW ⟨some "Hi", none, none⟩ aliceA bobE rfl rfl rfl
    rfl rfl (fun _ => rfl)

/-- Counterexample to claim C4 as stated: when the delivery collaborator
fails, `handle_admin_email_feature` does not return an error value — the
`smtplib` exception (modelled as `Except.error`) escapes uncaught across the
core/orchestrator boundary, since neither `_send_email` nor the handler has
any exception handling. -/
theorem claim_C4_cex :
    (handle_admin_email_feature envFailW stPendW adminUserW ⟨some "Hi", none, none⟩).result
        = Except.error "SMTPException"
      ∧ ∀ s, (Except.error "SMTPException" : Except String String) ≠ Except.ok s := by
  exact ⟨rfl, fun s h => Except.noConfusion h⟩

/-- Claim C4 (amended): the handler returns a user-facing message value
exactly when every send it dispatched succeeded; a delivery failure
propagates as the uncaught SMTP exception rather than being returned as an
error message.  (On paths that dispatch no send, a message is always
returned: the only exception crossing the boundary is the delivery one.) -/
theorem claim_C4 (env : Env) (state : EmailState) (user : UserRec) (entities : Entities) :
    (∃ s, (handle_admin_email_feature env state user entities).result = Except.ok s)
      ↔ ∀ r ∈ (handle_admin_email_feature env state user entities).sends,
          env.deliverOk r = true := by
  simp only [handle_admin_email_feature, _send_email]
  by_cases h1 : user.role ≠ some "ADMIN"
  · simp [h1]
  · rw [if_neg h1]
    cases h2 : _find_employee_by_id user.employee_id env.employees with
    | none => simp [h2]
    | some admin =>
      simp only [h2]
      by_cases h3 : pyFalsy admin.email = true
      · simp [h3]
      · rw [if_neg h3]
        cases h4 : ctxFind state user.employee_id with
        | none =>
          simp only [h4]
          by_cases h5 : pyFalsy (if pyFalsy entities.employee_name = true
              then _match_employee_name (entities.raw_text.getD "") env.employees
              else entities.employee_name) = true
          · simp [h5]
          · rw [if_neg h5]
            cases h6 : _find_employee_by_name ((if pyFalsy entities.employee_name = true
                then _match_employee_name (entities.raw_text.getD "") env.employees
                else entities.employee_name).getD "") env.employees with
            | none => simp [h6]
            | some employee =>
              simp only [h6]
              by_cases h7 : pyFalsy employee.email = true
              · simp [h7]
              · rw [if_neg h7]
                simp
        | some toEmployee =>
          simp only [h4]
          by_cases h5 : pyFalsy (effMessage entities) = true
          · simp [h5]
          · rw [if_neg h5]
            by_cases h6 : env.deliverOk ⟨admin.email.getD "", toEmployee.email.getD "",
                toEmployee.name, admin.name, (effMessage entities).getD ""⟩ = true
            · simp [h6]
            · simp [h6]

/-- Witness for C4 at a concrete call with a succeeding collaborator. -/
theorem claim_C4_witness :
    (∃ s, (handle_admin_email_feature envOkW stPendW adminUserW
        ⟨some "Hi", none, none⟩).result = Except.ok s)
      ↔ ∀ r ∈ (handle_admin_email_feature envOkW stPendW adminUserW
          ⟨some "Hi", none, none⟩).sends, envOkW.deliverOk r = true :=
  claim_C4 envOkW stPendW adminUserW ⟨some "Hi", none, none⟩

/-! ## Claims about the intent detector -/

/-- Counterexample to claim C2 as stated: with a single catalog record whose
similarity to the query is `-1`, the highest similarity found across all
embedding records is `-1`, yet `get_intent` reports `0`: the running maximum
is seeded with `0.0` and updated only by a strict `>`, so an all-negative
catalog reports `0.0`, not the highest similarity found. -/
theorem claim_C2_cex :
    recsNegW.map EmbRecord.embedding = [[-1, 0]]
      ∧ cosine_similarity (embedUnit "q") [-1, 0] = -1
      ∧ (get_intent embedUnit recsNegW "q" 2).2 = 0
      ∧ ((-1 : ℝ) ≠ 0) := by
  refine ⟨rfl, cos_unit_neg, ?_, by norm_num⟩
  rw [get_intent_snd]
  simp only [recsNegW, List.foldl_cons, List.foldl_nil]
  rw [show cosine_similarity (embedUnit "q")
      ((⟨intentGreet, [-1, 0]⟩ : EmbRecord).embedding) = -1 from cos_unit_neg]
  norm_num

/-- Claim C2 (amended): the score reported by `get_intent` (hit or miss) is
the running maximum of the cosine similarities of all embedding records
seeded with `0.0` — that is, the highest similarity clamped from below by
`0.0` — and it is `0.0` for an empty catalog. -/
theorem claim_C2 (embed : String → List ℝ) (records : List EmbRecord)
    (query : String) (threshold : ℝ) :
    (get_intent embed records query threshold).2
        = (simScores embed records query).foldl max 0
      ∧ (records = [] → (get_intent embed records query threshold).2 = 0) := by
  have h : (get_intent embed records query threshold).2
      = (simScores embed records query).foldl max 0 := by
    rw [get_intent_snd, simScores, List.foldl_map]
  exact ⟨h, fun he => by rw [h, he]; rfl⟩

/-- Witness for C2 at the empty catalog. -/
theorem claim_C2_witness : (get_intent embedUnit [] "q" (1 / 2)).2 = 0 :=
  (claim_C2 embedUnit [] "q" (1 / 2)).2 rfl

/-- Counterexample to claim C5 as stated: one record orthogonal to the query
(similarity `0`) with threshold `0`.  The maximum similarity `0` is `≥` the
threshold, so the claim requires `(intent, score)`, but `get_intent` returns
`(none, 0)`: the seed `0.0` of the running maximum also wins ties by the
strict `>`, so no record whose score is `≤ 0` can ever become the best
intent. -/
theorem claim_C5_cex :
    cosine_similarity (embedUnit "q") [0, 1] = 0
      ∧ ((0 : ℝ) ≤ 0)
      ∧ (get_intent embedUnit recsOrthW "q" 0).1 = none
      ∧ (get_intent embedUnit recsOrthW "q" 0).2 = 0 := by
  have hc : cosine_similarity (embedUnit "q")
      ((⟨intentGreet, [0, 1]⟩ : EmbRecord).embedding) = 0 := cos_unit_orth
  have hfold : recsOrthW.foldl (detStep (embedUnit "q")) (none, 0) = (none, 0) := by
    simp only [recsOrthW, List.foldl_cons, List.foldl_nil]
    unfold detStep
    rw [hc]
    simp
  refine ⟨cos_unit_orth, le_refl 0, ?_, ?_⟩
  · simp only [get_intent, hfold]
    split <;> rfl
  · simp only [get_intent, hfold]
    split <;> rfl

/-- Claim C5 (amended): `get_intent` scans all records tracking the maximum
with a strict `>` seeded at `(none, 0.0)`, so among the records the
first-seen one achieving the maximum wins ties — but the seed itself wins
ties at `0`, so an intent can only be reported when some score is strictly
positive.  Part (a): whenever every record's similarity is `≤ 0`, the result
is `(none, 0)` for every threshold, so no intent is ever returned.  Part
(b): for the first record index `i` achieving the strictly positive maximum,
if the threshold is `≤` that maximum the result is that record's intent with
that score, and otherwise `(none, score)`. -/
theorem claim_C5 (embed : String → List ℝ) (records : List EmbRecord)
    (query : String) (threshold : ℝ) :
    ((∀ r ∈ records, cosine_similarity (embed query) r.embedding ≤ 0) →
      get_intent embed records query threshold = (none, 0))
      ∧ (∀ i (hi : i < records.length),
        0 < cosine_similarity (embed query) ((records.get ⟨i, hi⟩).embedding) →
        (∀ j (hj : j < records.length), j < i →
          cosine_similarity (embed query) ((records.get ⟨j, hj⟩).embedding)
            < cosine_similarity (embed query) ((records.get ⟨i, hi⟩).embedding)) →
        (∀ j (hj : j < records.length),
          cosine_similarity (embed query) ((records.get ⟨j, hj⟩).embedding)
            ≤ cosine_similarity (embed query) ((records.get ⟨i, hi⟩).embedding)) →
        (threshold ≤ cosine_similarity (embed query) ((records.get ⟨i, hi⟩).embedding) →
          get_intent embed records query threshold
            = (some (records.get ⟨i, hi⟩).intent,
               cosine_similarity (embed query) ((records.get ⟨i, hi⟩).embedding)))
          ∧ (cosine_similarity (embed query) ((records.get ⟨i, hi⟩).embedding) < threshold →
            get_intent embed records query threshold
              = (none,
                 cosine_similarity (embed query) ((records.get ⟨i, hi⟩).embedding)))) := by
  constructor
  · intro h
    have hfold : records.foldl (detStep (embed query)) (none, 0) = (none, 0) :=
      foldl_detStep_frozen (embed query) records (none, 0) h
    simp only [get_intent, hfold]
    split <;> rfl
  · intro i hi hpos hfirst hmax
    have hfold := foldl_detStep_firstmax (embed query) records (none, 0) i hi hpos
      hfirst hmax
    constructor
    · intro h
      simp only [get_intent, hfold]
      rw [if_pos h]
    · intro h
      simp only [get_intent, hfold]
      rw [if_neg (not_le.mpr h)]

/-- Witness for C5, exercising both parts: an all-nonpositive catalog (one
orthogonal record, similarity `0`) yields `(none, 0)` even with threshold
`0`, and a single record of similarity `1` with threshold `0.6` yields that
record's intent with score `1`. -/
theorem claim_C5_witness :
    get_intent embedUnit recsOrthW "q" 0 = (none, 0)
      ∧ get_intent embedUnit recsUnit "hello there" 0.6 = (some intentGreet, 1) := by
  constructor
  · refine (claim_C5 embedUnit recsOrthW "q" 0).1 ?_
    intro r hr
    have hr1 : r = ⟨intentGreet, [0, 1]⟩ := by
      simpa [recsOrthW] using hr
    subst hr1
    exact le_of_eq cos_unit_orth
  · have hlen : 0 < recsUnit.length := by
      rw [show recsUnit.length = 1 from rfl]
      exact Nat.zero_lt_one
    have hc : cosine_similarity (embedUnit "hello there")
        ((recsUnit.get ⟨0, hlen⟩).embedding) = 1 := cos_unit_unit
    have h := ((claim_C5 embedUnit recsUnit "hello there" 0.6).2 0 hlen
      (by rw [hc]; norm_num)
      (fun j hj hj0 => absurd hj0 (Nat.not_lt_zero j))
      (fun j hj => by
        have h1 : recsUnit.length = 1 := rfl
        have hj0 : j = 0 := by omega
        subst hj0
        exact le_rfl)).1 (by rw [hc]; norm_num)
    rw [hc] at h
    exact h

/-- Specialisation of `foldl_max_le` to the fused maximum-of-similarities
fold. -/
theorem foldl_maxsim_le (qe : List ℝ) : ∀ (recs : List EmbRecord) (c b : ℝ),
    c ≤ b → (∀ r ∈ recs, cosine_similarity qe r.embedding ≤ b) →
    recs.foldl (fun x r => max x (cosine_similarity qe r.embedding)) c ≤ b
  | [], _, _, hc, _ => hc
  | r :: rs, c, b, hc, h => by
    rw [List.foldl_cons]
    exact foldl_maxsim_le qe rs _ b
      (max_le hc (h r (List.mem_cons_self r rs)))
      fun x hx => h x (List.mem_cons_of_mem r hx)

/-- Claim C8: when the threshold exceeds `1` and all embeddings involved are
non-degenerate (nonzero norm), `get_intent` never returns an intent: every
cosine similarity is at most `1` by Cauchy-Schwarz, so the running maximum
never reaches the threshold. -/
theorem claim_C8 (embed : String → List ℝ) (records : List EmbRecord)
    (query : String) (threshold : ℝ) (hth : 1 < threshold)
    (hq : vecNorm (embed query) ≠ 0)
    (hrec : ∀ r ∈ records, vecNorm r.embedding ≠ 0) :
    (get_intent embed records query threshold).1 = none := by
  have hb : (records.foldl (detStep (embed query)) (none, 0)).2 ≤ 1 := by
    rw [foldl_detStep_snd]
    exact foldl_maxsim_le (embed query) records _ 1 zero_le_one
      fun r hr => cosine_le_one _ _ hq (hrec r hr)
  simp only [get_intent]
  rw [if_neg (not_le.mpr (lt_of_le_of_lt hb hth))]

/-- Witness for C8: unit-vector catalog and query, threshold `2`. -/
theorem claim_C8_witness : (get_intent embedUnit recsUnit "hello" 2).1 = none := by
  refine claim_C8 embedUnit recsUnit "hello" 2 (by norm_num) ?_ ?_
  · rw [show vecNorm (embedUnit "hello") = 1 from vecNorm_unit]
    norm_num
  · intro r hr
    have hr1 : r = ⟨intentGreet, [1, 0]⟩ := by
      simpa [recsUnit] using hr
    subst hr1
    rw [show vecNorm ((⟨intentGreet, [1, 0]⟩ : EmbRecord).embedding) = 1 from vecNorm_unit]
    norm_num

/-! ## Claims about the similarity scorer -/

/-- Claim C7: for equal-length non-zero vectors, `cosine_similarity` is the
dot product divided by the product of the Euclidean norms (the spec-side
`dotProd` and `euclNorm` are defined independently of the source's
zip/map/sum phrasing); the function is a pure mathematical function of its
arguments, hence deterministic. -/
theorem claim_C7 (v1 v2 : List ℝ) (hlen : v1.length = v2.length)
    (h1 : euclNorm v1 ≠ 0) (h2 : euclNorm v2 ≠ 0) :
    cosine_similarity v1 v2 = dotProd v1 v2 / (euclNorm v1 * euclNorm v2) := by
  rw [cosine_similarity, zip_sum_eq_dotProd, vecNorm_eq_euclNorm, vecNorm_eq_euclNorm]

/-- Witness for C7 at the vectors `[3, 4]` and `[4, 3]` of norm `5`. -/
theorem claim_C7_witness :
    euclNorm [(3 : ℝ), 4] ≠ 0
      ∧ cosine_similarity [(3 : ℝ), 4] [4, 3]
          = dotProd [(3 : ℝ), 4] [4, 3] / (euclNorm [(3 : ℝ), 4] * euclNorm [(4 : ℝ), 3]) := by
  have h1 : euclNorm [(3 : ℝ), 4] ≠ 0 := by rw [euclNorm_34]; norm_num
  have h2 : euclNorm [(4 : ℝ), 3] ≠ 0 := by rw [euclNorm_43]; norm_num
  exact ⟨h1, claim_C7 [(3 : ℝ), 4] [(4 : ℝ), 3] rfl h1 h2⟩

/-! ## Claims about the privacy lookup -/

/-- With distinct catalog ids, the linear scan returns the flag of the member
intent carrying the queried id. -/
theorem is_private_intent_of_mem : ∀ (intents : List Intent) (it : Intent),
    it ∈ intents → (intents.map Intent.intent_id).Nodup →
    is_private_intent intents it.intent_id = it.is_private.getD false
  | [], it, hmem, _ => absurd hmem (List.not_mem_nil it)
  | a :: l, it, hmem, hnd => by
    have hnd' : a.intent_id ∉ l.map Intent.intent_id
        ∧ (l.map Intent.intent_id).Nodup := by
      rw [List.map_cons, List.nodup_cons] at hnd
      exact hnd
    rcases List.mem_cons.mp hmem with rfl | hl
    · rw [is_private_intent]
      simp [List.find?_cons]
    · have hne : (a.intent_id == it.intent_id) = false := by
        rw [beq_eq_false_iff_ne]
        intro h
        exact hnd'.1 (h ▸ List.mem_map.mpr ⟨it, hl, rfl⟩)
      have htail := is_private_intent_of_mem l it hl hnd'.2
      rw [is_private_intent] at htail ⊢
      simp only [List.find?_cons, hne]
      exact htail

/-- Claim C9: an `intent_id` absent from the catalog yields `false` (fails
open to public); an id present in a catalog with unique ids yields that
intent's privacy flag (default `false` when the key is absent); and the
lookup is idempotent, the catalog being immutable. -/
theorem claim_C9 (intents : List Intent) (qid : String) :
    ((∀ it ∈ intents, it.intent_id ≠ qid) → is_private_intent intents qid = false)
      ∧ (∀ it, it ∈ intents → it.intent_id = qid →
          (intents.map Intent.intent_id).Nodup →
          is_private_intent intents qid = it.is_private.getD false)
      ∧ is_private_intent intents qid = is_private_intent intents qid := by
  refine ⟨?_, ?_, rfl⟩
  · intro h
    rw [is_private_intent, List.find?_eq_none.mpr]
    intro it hit
    simpa using h it hit
  · intro it hmem hid hnd
    subst hid
    exact is_private_intent_of_mem intents it hmem hnd

/-- Witness for C9: a private intent is looked up as private, an unknown id
as public. -/
theorem claim_C9_witness :
    is_private_intent [intentGreet, intentBye] "greet" = true
      ∧ is_private_intent [intentGreet, intentBye] "nobody" = false := by
  constructor
  · have h := (claim_C9 [intentGreet, intentBye] "greet").2.1 intentGreet
      (List.mem_cons_self _ _) rfl (by decide)
    simpa using h
  · exact (claim_C9 [intentGreet, intentBye] "nobody").1 (by decide)
